import Mathlib

/-!
Verification development for the weekly AI-analysis generation and caching
pipeline of the dashboard-brb repository.

The definitions below are a shallow embedding of the pipeline code:
* `callGeminiRun` embeds the multi-model fallback loop `callGeminiAPI` of
  `src/services/gemini.ts` (lines 280-355), with the outcome of each
  backend attempt supplied as data and the observable actions (which model
  index is invoked, when the 2000 ms backoff sleep happens) recorded as an
  event trace.
* `generateWeeklyAnalysis` embeds the coordinator of the same file
  (lines 361-427), with store interactions recorded as effects.
* `deriveFingerprint` / `dataKeyOf` embed the `dataKey` memo of
  `src/components/AIAnalysis.tsx` (lines 24-31).
* `generateAnalysisStart` / `generateAnalysisFinish` and `analysisEffect`
  embed the single-flight guard of the same component (lines 36-99).
* `handler` and `historyScan` embed the persistence endpoint
  `api/analysis.ts`.
-/

namespace DashboardBRB

/-- Outcome of one attempt against one backend model, as observed by the
fallback loop in `callGeminiAPI`:
* `success t` — HTTP 200 with a nonempty candidate list whose first text is `t`;
* `emptySuccess` — HTTP 200 but `candidates` missing or empty;
* `httpError s` — axios threw with `error.response.status = s`;
* `networkError` — axios threw with no response status. -/
inductive AttemptOutcome where
  | success (text : String)
  | emptySuccess
  | httpError (status : Nat)
  | networkError
deriving DecidableEq, Repr

/-- Final result of the fallback loop: the returned text, a thrown fatal
error (status 400/401/403), or the aggregate "all models failed" error. -/
inductive RunOutcome where
  | success (text : String)
  | fatal (status : Nat)
  | exhausted
deriving DecidableEq, Repr

/-- Observable events of one fallback run: invocation of the model at a
given position, and the fixed 2000 ms backoff sleep. -/
inductive Ev where
  | invoke (i : Nat)
  | backoff
deriving DecidableEq, Repr

/-- Status codes the catch-branch of `callGeminiAPI` retries on
(`statusCode === 429 || statusCode === 503 || statusCode === 500`). -/
def retryStatus (s : Nat) : Bool :=
  s == 429 || s == 503 || s == 500

/-- Status codes the catch-branch of `callGeminiAPI` treats as fatal
(`statusCode === 400 || statusCode === 403 || statusCode === 401`). -/
def fatalStatus (s : Nat) : Bool :=
  s == 400 || s == 403 || s == 401

/-- An attempt outcome that makes the loop move on to the next model:
anything that is neither a usable success nor a fatal status. -/
def isRetryable : AttemptOutcome → Bool
  | .success _ => false
  | .emptySuccess => true
  | .httpError s => !(fatalStatus s)
  | .networkError => true

/-- An attempt outcome that reaches one of the two `await setTimeout`
backoff branches of the loop body (the in-`catch` branches): an HTTP error
with a retryable status, an HTTP error with an unclassified status, or a
network error.  A 200 response without candidates falls through the `try`
block with no sleep. -/
def errRetryable : AttemptOutcome → Bool
  | .success _ => false
  | .emptySuccess => false
  | .httpError s => !(fatalStatus s)
  | .networkError => true

/-- One iteration sequence of the `for` loop of `callGeminiAPI`
(`src/services/gemini.ts` lines 292-347), starting at model position `i`,
with `outs` the outcomes of the remaining models.  Mirrors the source:
* `success t`: `response.status === 200 && candidates.length > 0` → return;
* `emptySuccess`: fall through (`lastError` set), no sleep, next model;
* `httpError` with 429/503/500: sleep 2000 ms unless last model, continue;
* `httpError` with 400/403/401: throw (fatal);
* any other error: sleep 2000 ms unless last model, continue;
* list exhausted: throw the aggregate "all models failed" error. -/
def geminiGo : List AttemptOutcome → Nat → RunOutcome × List Ev
  | [], _ => (.exhausted, [])
  | o :: rest, i =>
    match o with
    | .success t => (.success t, [.invoke i])
    | .emptySuccess =>
      let r := geminiGo rest (i + 1)
      (r.1, .invoke i :: r.2)
    | .httpError s =>
      if retryStatus s then
        match rest with
        | [] => (.exhausted, [.invoke i])
        | _ :: _ =>
          let r := geminiGo rest (i + 1)
          (r.1, .invoke i :: .backoff :: r.2)
      else if fatalStatus s then
        (.fatal s, [.invoke i])
      else
        match rest with
        | [] => (.exhausted, [.invoke i])
        | _ :: _ =>
          let r := geminiGo rest (i + 1)
          (r.1, .invoke i :: .backoff :: r.2)
    | .networkError =>
      match rest with
      | [] => (.exhausted, [.invoke i])
      | _ :: _ =>
        let r := geminiGo rest (i + 1)
        (r.1, .invoke i :: .backoff :: r.2)

/-- The fallback orchestrator `callGeminiAPI`: run the loop over the whole
ordered model list (positions from 0). -/
def callGeminiRun (outs : List AttemptOutcome) : RunOutcome × List Ev :=
  geminiGo outs 0

/-- Model positions actually invoked during a run, in trace order. -/
def invokedIdx (tr : List Ev) : List Nat :=
  tr.filterMap fun e => match e with | .invoke j => some j | .backoff => none

/-! ### Fingerprint derivation (`dataKey` memo, `src/components/AIAnalysis.tsx` 24-31) -/

/-- Little-endian-free decimal rendering of a natural number, as JavaScript
template-literal interpolation renders a nonnegative safe integer.  The
first argument is structural fuel; `toDecString` supplies enough. -/
def decDigitsGo : Nat → Nat → List Char
  | 0, _ => []
  | fuel + 1, n =>
    if n < 10 then [Char.ofNat (48 + n)]
    else decDigitsGo fuel (n / 10) ++ [Char.ofNat (48 + n % 10)]

/-- Decimal string of a natural number (`${n}` in the source template). -/
def toDecString (n : Nat) : String :=
  ⟨decDigitsGo (n + 1) n⟩

/-- Decimal value of a digit list; inverse of `decDigitsGo` used to prove
injectivity of the rendering. -/
def decVal (l : List Char) : Nat :=
  l.foldl (fun acc c => acc * 10 + (c.toNat - 48)) 0

/-- One data row, reduced to the fields the analysed pipeline reads:
`impressions` (summed into the fingerprint) and `date` (used to derive the
previous-week comparison window), measured in days. -/
structure Row where
  impressions : Nat
  date : Int
deriving DecidableEq, Repr

/-- `data.reduce((sum, item) => sum + item.impressions, 0)`. -/
def sumImpressions (data : List Row) : Nat :=
  data.foldl (fun s r => s + r.impressions) 0

/-- `selectedCampaign || 'all'` — JavaScript falsy check: `null` and the
empty string both fall back to the `'all'` sentinel. -/
def selPart : Option String → String
  | none => "all"
  | some s => if s = "" then "all" else s

/-- The fingerprint template
`` `${selectedCampaign || 'all'}-${totalRecords}-${totalImpressions}` ``. -/
def deriveFingerprint (sel : Option String) (totalRecords totalImpressions : Nat) : String :=
  selPart sel ++ "-" ++ toDecString totalRecords ++ "-" ++ toDecString totalImpressions

/-- The `dataKey` memo of `AIAnalysis.tsx`: `null` unless the 7-day filter
is active and the dataset is nonempty, else the derived fingerprint. -/
def dataKeyOf (periodFilter : String) (selectedCampaign : Option String)
    (data : List Row) : Option String :=
  if periodFilter ≠ "7days" ∨ data.length = 0 then none
  else some (deriveFingerprint selectedCampaign data.length (sumImpressions data))

/-! ### Single-flight guard (`AIAnalysis.tsx` 36-99)

The component runs on a single-threaded event loop; `generateAnalysis` is
split at its first `await` into a synchronous prefix (`generateAnalysisStart`,
everything up to and including `isGeneratingRef.current = true` and the
state resets) and the completion continuation (`generateAnalysisFinish`,
the `try`-result handling plus the `finally` block).  A second cooperative
invocation can only interleave between the two. -/

/-- Mutable component state: the `isGeneratingRef` and
`lastProcessedKeyRef` refs and the React state cells read by the claims. -/
structure UIState where
  isGenerating : Bool
  lastProcessedKey : Option String
  loading : Bool
  error : Option String
  analysis : String
deriving DecidableEq, Repr

/-- Synchronous prefix of `generateAnalysis` (lines 61-75): bail out if a
generation is already in flight or `dataKey` is unavailable; otherwise set
the guard, set loading, clear the error.  The returned `Bool` is `true`
iff this call proceeds to issue a backend invocation sequence
(`generateWeeklyAnalysis`). -/
def generateAnalysisStart (dataKey : Option String) (st : UIState) : UIState × Bool :=
  if st.isGenerating then (st, false)
  else
    match dataKey with
    | none => (st, false)
    | some _ =>
      ({ st with isGenerating := true, loading := true, error := none }, true)

/-- Completion of `generateAnalysis` (lines 77-98): on success store the
text, on error store the message; the `finally` block clears `loading`
and releases the in-flight guard on both paths. -/
def generateAnalysisFinish (result : Except String String) (st : UIState) : UIState :=
  let st1 :=
    match result with
    | .ok t => { st with analysis := t }
    | .error e => { st with error := some e }
  { st1 with loading := false, isGenerating := false }

/-- The `useEffect` body (lines 36-59): when the 7-day filter is active
with data and a key, skip if the key was already processed or a generation
is in flight, else record the key and start; otherwise reset.  The `Bool`
is `true` iff a backend invocation sequence is started. -/
def analysisEffect (periodFilter : String) (dataLen : Nat) (dataKey : Option String)
    (st : UIState) : UIState × Bool :=
  if periodFilter = "7days" ∧ 0 < dataLen ∧ dataKey.isSome then
    if dataKey = st.lastProcessedKey then (st, false)
    else if st.isGenerating then (st, false)
    else generateAnalysisStart dataKey { st with lastProcessedKey := dataKey }
  else
    ({ st with analysis := "", error := none, lastProcessedKey := none }, false)

/-! ### Generation coordinator (`generateWeeklyAnalysis`, `gemini.ts` 361-427) -/

/-- Result record `{ analysis, cached, timestamp }`. -/
structure GenResult where
  analysis : String
  cached : Bool
  timestamp : String
deriving DecidableEq, Repr

/-- Observable store/backend interactions of one coordinator run. -/
inductive GEffect where
  | storeRead
  | storeWrite
  | backendRun
deriving DecidableEq, Repr

/-- Environment of one coordinator run: what `getCachedAnalysis` resolves
to (the source function catches all its errors and resolves `null` on a
miss or a read failure, so it is total), the outcome of each configured
backend model, the outcome of the `POST` inside `setCachedAnalysis`, and
`new Date().toISOString()`. -/
structure GenEnv where
  cached : Option GenResult
  geminiOutcomes : List AttemptOutcome
  putResult : Except Unit Unit
  nowTs : String

/-- The fixed "no data" sentinel text of `generateWeeklyAnalysis`. -/
def sentinelText : String :=
  "Não há dados disponíveis para análise desta semana."

/-- `setCachedAnalysis` (`src/services/cache.ts`): issues the store write
and swallows any error in its own `try`/`catch`, resolving `void` on both
paths. -/
def setCachedAnalysis (putResult : Except Unit Unit) : Unit :=
  match putResult with
  | .ok _ => ()
  | .error _ => ()

/-- `generateWeeklyAnalysis` (`gemini.ts` 361-427).  Empty current-week
data short-circuits to the sentinel before any cache import; otherwise the
cache is consulted unless `forceRefresh`; on a miss the prompt is built
(pure data formatting with no observable effect — abstracted) and the
fallback orchestrator is run; on success the text is written back through
`setCachedAnalysis` (which never throws) and returned with
`cached = false`; orchestrator failures propagate as errors. -/
def generateWeeklyAnalysis (currentWeekData : List Row) (_allData : List Row)
    (_dataKey : String) (forceRefresh : Bool) (env : GenEnv) :
    Except String GenResult × List GEffect :=
  if currentWeekData.isEmpty then
    (.ok ⟨sentinelText, false, env.nowTs⟩, [])
  else
    let cachedHit : Option GenResult × List GEffect :=
      if !forceRefresh then (env.cached, [.storeRead]) else (none, [])
    match cachedHit.1 with
    | some c => (.ok c, cachedHit.2)
    | none =>
      let run := callGeminiRun env.geminiOutcomes
      match run.1 with
      | .success t =>
        let _ := setCachedAnalysis env.putResult
        (.ok ⟨t, false, env.nowTs⟩, cachedHit.2 ++ [.backendRun, .storeWrite])
      | .fatal s =>
        (.error ("Erro fatal na API do Gemini (" ++ toDecString s ++ ")"),
          cachedHit.2 ++ [.backendRun])
      | .exhausted =>
        (.error "Todos os modelos falharam ou atingiram o limite.",
          cachedHit.2 ++ [.backendRun])

/-! ### Persistence endpoint (`api/analysis.ts`) -/

/-- JavaScript truthiness of an optional string: `undefined`/missing and
the empty string are falsy. -/
def jsTruthy : Option String → Bool
  | none => false
  | some s => s != ""

/-- One entry of the history response. -/
structure HistoryEntry where
  date : String
  analysis : String
  timestamp : String
deriving DecidableEq, Repr

/-- The handler's possible responses. -/
inductive HResp where
  | ok200 (analysis : String) (cached : Bool) (timestamp : String)
  | history200 (entries : List HistoryEntry)
  | notFound404
  | badRequest400
  | methodNotAllowed405
  | serverError500
  | corsPreflight200
deriving DecidableEq, Repr

/-- Store and clock environment of the endpoint: `get` models `redis.get`
(which can reject — `.error`), `dayStr i` is the `YYYY-MM-DD` string of
today minus `i` days (`dayStr 0` = today), `dayIso i` is
`new Date(date).toISOString()` for that day (the history timestamp
fallback), and `nowIso` is `new Date().toISOString()`. -/
structure StoreEnv where
  get : String → Except Unit (Option String)
  dayStr : Nat → String
  dayIso : Nat → String
  nowIso : String

/-- The colon-delimited storage key scheme
`` `analysis:${date}:${dataKey}` ``. -/
def cacheKeyOf (date : String) (dataKey : String) : String :=
  "analysis:" ++ date ++ ":" ++ dataKey

/-- The 30-day history loop of the handler (`api/analysis.ts` 48-67) over
the listed day offsets: for each day both the entry and its timestamp are
fetched; a rejected `get` propagates (aborting the whole scan); days with
an entry are accumulated in scan order. -/
def historyScanGo (env : StoreEnv) (dataKey : String) :
    List Nat → Except Unit (List HistoryEntry)
  | [] => .ok []
  | i :: rest => do
    let cacheKey := cacheKeyOf (env.dayStr i) dataKey
    let cached ← env.get cacheKey
    let ts ← env.get (cacheKey ++ ":timestamp")
    let tail ← historyScanGo env dataKey rest
    match cached with
    | some a => .ok (⟨env.dayStr i, a, ts.getD (env.dayIso i)⟩ :: tail)
    | none => .ok tail

/-- The trailing-window history scan: days `0..29`, most recent first. -/
def historyScan (env : StoreEnv) (dataKey : String) : Except Unit (List HistoryEntry) :=
  historyScanGo env dataKey (List.range 30)

/-- Client-side `getAnalysisHistory` (`src/services/cache.ts` 108-130,
production path): one request to the history endpoint; any error makes the
whole call resolve to the empty list — no per-day recovery. -/
def getAnalysisHistory (apiResult : Except Unit (List HistoryEntry)) : List HistoryEntry :=
  match apiResult with
  | .ok h => h
  | .error _ => []

/-- An incoming request, reduced to the fields the handler reads. -/
structure Req where
  method : String
  urlHasHistory : Bool
  queryDataKey : Option String
  queryDate : Option String
  bodyDataKey : Option String
  bodyAnalysis : Option String

/-- The endpoint handler (`api/analysis.ts` 19-155).  Returns the response
together with the list of `redis.set` writes performed (key/value pairs;
both carry the same 30-day TTL in the source).  A rejected `get` reaches
the surrounding `catch` and becomes a 500. -/
def handler (env : StoreEnv) (req : Req) : HResp × List (String × String) :=
  if req.method = "OPTIONS" then (.corsPreflight200, [])
  else if req.method = "GET" ∧ req.urlHasHistory then
    if !(jsTruthy req.queryDataKey) then (.badRequest400, [])
    else
      match historyScan env (req.queryDataKey.getD "") with
      | .error _ => (.serverError500, [])
      | .ok h => (.history200 h, [])
  else
    let dataKey := if req.method = "GET" then req.queryDataKey else req.bodyDataKey
    let analysis := if req.method = "POST" then req.bodyAnalysis else none
    let requestDate := if req.method = "GET" then req.queryDate else none
    if !(jsTruthy dataKey) then (.badRequest400, [])
    else
      let targetDate := if jsTruthy requestDate then requestDate.getD "" else env.dayStr 0
      let cacheKey := cacheKeyOf targetDate (dataKey.getD "")
      if req.method = "GET" ∨ !(jsTruthy analysis) then
        match env.get cacheKey with
        | .error _ => (.serverError500, [])
        | .ok (some c) =>
          match env.get (cacheKey ++ ":timestamp") with
          | .error _ => (.serverError500, [])
          | .ok ts => (.ok200 c true (ts.getD env.nowIso), [])
        | .ok none => (.notFound404, [])
      else if req.method = "POST" ∧ jsTruthy analysis then
        (.ok200 (analysis.getD "") false env.nowIso,
          [(cacheKey, analysis.getD ""), (cacheKey ++ ":timestamp", env.nowIso)])
      else (.methodNotAllowed405, [])

/-- The response of the read path of `handler` as a function of the
looked-up entry `v` and its timestamp key `ts`: a 200 hit carrying the
text and the stored timestamp (with `nowIso` as fallback), or an explicit
404 on a miss. -/
def readResponse (v ts : Option String) (nowIso : String) : HResp :=
  match v with
  | some c => .ok200 c true (ts.getD nowIso)
  | none => .notFound404

/-- A concrete store whose lookup of today's entry for fingerprint `"fp"`
rejects, while every other key (all 29 previous days included) hits. -/
def flakyStore : StoreEnv where
  get := fun k => if k = cacheKeyOf "2025-12-08" "fp" then .error () else .ok (some "x")
  dayStr := fun i => if i = 0 then "2025-12-08" else "2025-12-07"
  dayIso := fun _ => "2025-12-07T00:00:00.000Z"
  nowIso := "2025-12-08T12:00:00.000Z"

/-- A concrete store holding exactly today's entry for the fingerprint
`"all-245-1582340"`, with no timestamp key. -/
def demoStore : StoreEnv where
  get := fun k =>
    if k = cacheKeyOf "2025-12-08" "all-245-1582340" then .ok (some "texto")
    else .ok none
  dayStr := fun _ => "2025-12-08"
  dayIso := fun _ => "2025-12-08T00:00:00.000Z"
  nowIso := "2025-12-08T12:00:00.000Z"

/-! ## Helper lemmas about the fallback loop -/

theorem fatalStatus_retryStatus {s : Nat} (h : fatalStatus s = true) :
    retryStatus s = false := by
  simp only [fatalStatus, Bool.or_eq_true, beq_iff_eq] at h
  rcases h with (h | h) | h <;> subst h <;> rfl

theorem geminiGo_emptySuccess (rest : List AttemptOutcome) (i : Nat) :
    geminiGo (.emptySuccess :: rest) i =
      ((geminiGo rest (i + 1)).1, .invoke i :: (geminiGo rest (i + 1)).2) := rfl

theorem geminiGo_errRetryable {o : AttemptOutcome} (ho : errRetryable o = true)
    {rest : List AttemptOutcome} (hr : rest ≠ []) (i : Nat) :
    geminiGo (o :: rest) i =
      ((geminiGo rest (i + 1)).1,
        .invoke i :: .backoff :: (geminiGo rest (i + 1)).2) := by
  cases o with
  | success t => simp [errRetryable] at ho
  | emptySuccess => simp [errRetryable] at ho
  | httpError s =>
    have hf : fatalStatus s = false := by
      simpa [errRetryable] using ho
    cases rest with
    | nil => exact absurd rfl hr
    | cons y ys =>
      by_cases hrs : retryStatus s = true
      · simp [geminiGo, hrs, hf]
      · simp [geminiGo, hrs, hf]
  | networkError =>
    cases rest with
    | nil => exact absurd rfl hr
    | cons y ys => rfl

theorem geminiGo_fatal {s : Nat} (hs : fatalStatus s = true)
    (rest : List AttemptOutcome) (i : Nat) :
    geminiGo (.httpError s :: rest) i = (.fatal s, [.invoke i]) := by
  have hr := fatalStatus_retryStatus hs
  simp [geminiGo, hr, hs]

theorem invokedIdx_append (a b : List Ev) :
    invokedIdx (a ++ b) = invokedIdx a ++ invokedIdx b := by
  simp [invokedIdx]

theorem geminiGo_head (o : AttemptOutcome) (rest : List AttemptOutcome) (i : Nat) :
    ∃ tail, (geminiGo (o :: rest) i).2 = .invoke i :: tail := by
  cases o with
  | success t => exact ⟨[], rfl⟩
  | emptySuccess => exact ⟨_, rfl⟩
  | httpError s =>
    by_cases h1 : retryStatus s = true
    · cases rest with
      | nil => exact ⟨[], by simp [geminiGo, h1]⟩
      | cons y ys =>
        exact ⟨.backoff :: (geminiGo (y :: ys) (i + 1)).2, by simp [geminiGo, h1]⟩
    · by_cases h2 : fatalStatus s = true
      · exact ⟨[], by simp [geminiGo, h1, h2]⟩
      · cases rest with
        | nil => exact ⟨[], by simp [geminiGo, h1, h2]⟩
        | cons y ys =>
          exact ⟨.backoff :: (geminiGo (y :: ys) (i + 1)).2, by simp [geminiGo, h1, h2]⟩
  | networkError =>
    cases rest with
    | nil => exact ⟨[], rfl⟩
    | cons y ys => exact ⟨_, rfl⟩

/-- Retryable attempts only shift the loop to later positions: the run on
`pre ++ rest` with every element of `pre` retryable behaves like the run
on `rest` started at position `pre.length`, with a trace prefix that
invokes exactly positions `i, i+1, …, i+pre.length-1` in order. -/
theorem geminiGo_skip : ∀ (pre : List AttemptOutcome),
    (∀ x ∈ pre, isRetryable x = true) →
    ∀ (rest : List AttemptOutcome), rest ≠ [] → ∀ i,
    (geminiGo (pre ++ rest) i).1 = (geminiGo rest (i + pre.length)).1 ∧
    ∃ a, (geminiGo (pre ++ rest) i).2 = a ++ (geminiGo rest (i + pre.length)).2 ∧
         invokedIdx a = List.range' i pre.length := by
  intro pre
  induction pre with
  | nil =>
    intro _ rest _ i
    exact ⟨by simp, [], by simp, by simp [invokedIdx, List.range']⟩
  | cons x pre ih =>
    intro hpre rest hrest i
    have hx : isRetryable x = true := hpre x (by simp)
    have hpre' : ∀ y ∈ pre, isRetryable y = true := fun y hy => hpre y (by simp [hy])
    obtain ⟨h1, a, h2, h3⟩ := ih hpre' rest hrest (i + 1)
    have hlen : i + (x :: pre).length = (i + 1) + pre.length := by
      simp [List.length_cons]; omega
    cases x with
    | success t => simp [isRetryable] at hx
    | emptySuccess =>
      rw [List.cons_append, geminiGo_emptySuccess, hlen]
      refine ⟨h1, .invoke i :: a, ?_, ?_⟩
      · simp [h2]
      · have hcons : invokedIdx (Ev.invoke i :: a) = i :: invokedIdx a := rfl
        rw [hcons, h3, List.length_cons, List.range'_succ]
    | httpError s =>
      have ho : errRetryable (.httpError s) = true := by
        simpa [isRetryable, errRetryable] using hx
      have hne : pre ++ rest ≠ [] := by
        intro h; exact hrest (List.append_eq_nil.mp h).2
      rw [List.cons_append, geminiGo_errRetryable ho hne, hlen]
      refine ⟨h1, .invoke i :: .backoff :: a, ?_, ?_⟩
      · simp [h2]
      · have hcons : invokedIdx (Ev.invoke i :: Ev.backoff :: a) = i :: invokedIdx a := rfl
        rw [hcons, h3, List.length_cons, List.range'_succ]
    | networkError =>
      have ho : errRetryable .networkError = true := rfl
      have hne : pre ++ rest ≠ [] := by
        intro h; exact hrest (List.append_eq_nil.mp h).2
      rw [List.cons_append, geminiGo_errRetryable ho hne, hlen]
      refine ⟨h1, .invoke i :: .backoff :: a, ?_, ?_⟩
      · simp [h2]
      · have hcons : invokedIdx (Ev.invoke i :: Ev.backoff :: a) = i :: invokedIdx a := rfl
        rw [hcons, h3, List.length_cons, List.range'_succ]

/-! ## C2 — first success wins -/

/-- C2: for every prompt and ordered backend list, when every model before
position `i` fails retryably and the model at position `i` returns HTTP
200 with a usable candidate, the orchestrator returns that model's text,
and the run invokes exactly positions `0, …, i` in list order — no model
after the successful one is ever invoked. -/
theorem first_success_wins (pre post : List AttemptOutcome) (t : String)
    (hpre : ∀ x ∈ pre, isRetryable x = true) :
    (callGeminiRun (pre ++ .success t :: post)).1 = .success t ∧
    invokedIdx (callGeminiRun (pre ++ .success t :: post)).2 =
      List.range (pre.length + 1) := by
  obtain ⟨h1, a, h2, h3⟩ :=
    geminiGo_skip pre hpre (.success t :: post) (by simp) 0
  constructor
  · rw [callGeminiRun, h1]; rfl
  · rw [callGeminiRun, h2, invokedIdx_append, h3]
    have hrest : invokedIdx (geminiGo (.success t :: post) (0 + pre.length)).2 =
        [pre.length] := by simp [geminiGo, invokedIdx]
    rw [hrest, List.range_succ, List.range_eq_range']

/-- Witness for C2 at the spec's own scenario: model A fails with a
retryable 429, model B succeeds — `generate` returns B's text and invokes
exactly positions 0 and 1 (C, at position 2, is never called). -/
theorem first_success_wins_witness :
    (callGeminiRun [.httpError 429, .success "B", .emptySuccess]).1 = .success "B" ∧
    invokedIdx (callGeminiRun [.httpError 429, .success "B", .emptySuccess]).2 =
      List.range 2 :=
  first_success_wins [.httpError 429] [.emptySuccess] "B" (by decide)

/-! ## C3 — fatal failure aborts the whole orchestration -/

/-- C3: when every model before position `i` fails retryably and the model
at position `i` fails with a validation/authorization status (400, 401 or
403), the run aborts with that fatal error and invokes exactly positions
`0, …, i` — no later model is invoked, even one that would succeed. -/
theorem fatal_aborts_immediately (pre post : List AttemptOutcome) (s : Nat)
    (hpre : ∀ x ∈ pre, isRetryable x = true) (hs : fatalStatus s = true) :
    (callGeminiRun (pre ++ .httpError s :: post)).1 = .fatal s ∧
    invokedIdx (callGeminiRun (pre ++ .httpError s :: post)).2 =
      List.range (pre.length + 1) := by
  obtain ⟨h1, a, h2, h3⟩ :=
    geminiGo_skip pre hpre (.httpError s :: post) (by simp) 0
  constructor
  · rw [callGeminiRun, h1, geminiGo_fatal hs]
  · rw [callGeminiRun, h2, invokedIdx_append, h3]
    have hrest : invokedIdx (geminiGo (.httpError s :: post) (0 + pre.length)).2 =
        [pre.length] := by rw [geminiGo_fatal hs]; simp [invokedIdx]
    rw [hrest, List.range_succ, List.range_eq_range']

/-- Witness for C3 at the spec's own scenario: model A fails fatally with
HTTP 400, model B would succeed — the run fails fatally and B (position 1)
is never invoked. -/
theorem fatal_aborts_immediately_witness :
    (callGeminiRun [.httpError 400, .success "B"]).1 = .fatal 400 ∧
    invokedIdx (callGeminiRun [.httpError 400, .success "B"]).2 = List.range 1 :=
  fatal_aborts_immediately [] [.success "B"] 400 (by decide) (by decide)

/-! ## C8 — backoff between retryable attempts -/

/-- C8 counterexample: with a 200-no-candidates outcome at position 0
(a `RetryableFailure` that is not the last candidate) followed by a
success, the run proceeds straight from invoking model 0 to invoking
model 1 — no backoff event occurs anywhere in the trace, refuting the
claim that a fixed nonzero backoff wait follows every retryable attempt. -/
theorem empty_success_no_backoff :
    (callGeminiRun [.emptySuccess, .success "ok"]).1 = .success "ok" ∧
    (callGeminiRun [.emptySuccess, .success "ok"]).2 =
      [.invoke 0, .invoke 1] ∧
    Ev.backoff ∉ (callGeminiRun [.emptySuccess, .success "ok"]).2 := by
  decide

/-- C8 amended: the fixed backoff wait happens after every retryable
attempt that raises an error (HTTP 429/503/500, an unclassified status, or
a network error) when it is not the last candidate — the backoff event
immediately follows that invocation; but after a 200 response with no
usable candidates the next backend is invoked immediately, with no
backoff in between. -/
theorem backoff_on_error_retryable (pre rest : List AttemptOutcome)
    (hpre : ∀ x ∈ pre, isRetryable x = true) (hrest : rest ≠ []) :
    (∀ o, errRetryable o = true →
      ∃ a b, (callGeminiRun (pre ++ o :: rest)).2 =
        a ++ .invoke pre.length :: .backoff :: b) ∧
    (∃ a b, (callGeminiRun (pre ++ .emptySuccess :: rest)).2 =
        a ++ .invoke pre.length :: .invoke (pre.length + 1) :: b) := by
  constructor
  · intro o ho
    obtain ⟨_, a, h2, _⟩ := geminiGo_skip pre hpre (o :: rest) (by simp) 0
    refine ⟨a, (geminiGo rest (pre.length + 1)).2, ?_⟩
    rw [callGeminiRun, h2, geminiGo_errRetryable ho hrest]
    simp
  · obtain ⟨_, a, h2, _⟩ := geminiGo_skip pre hpre (.emptySuccess :: rest) (by simp) 0
    cases rest with
    | nil => exact absurd rfl hrest
    | cons y ys =>
      obtain ⟨tail, htail⟩ := geminiGo_head y ys (pre.length + 1)
      refine ⟨a, tail, ?_⟩
      rw [callGeminiRun, h2, geminiGo_emptySuccess]
      simp [htail]

/-- Witness for the amended C8: a 429 at position 0 with one model after
it is followed by a backoff before model 1 is invoked, while a
200-no-candidates at position 0 is followed immediately by the invocation
of model 1. -/
theorem backoff_on_error_retryable_witness :
    (∃ a b, (callGeminiRun [.httpError 429, .success "x"]).2 =
      a ++ .invoke 0 :: .backoff :: b) ∧
    (∃ a b, (callGeminiRun [.emptySuccess, .success "x"]).2 =
      a ++ .invoke 0 :: .invoke 1 :: b) :=
  ⟨(backoff_on_error_retryable [] [.success "x"] (by decide) (by decide)).1
      (.httpError 429) (by decide),
    (backoff_on_error_retryable [] [.success "x"] (by decide) (by decide)).2⟩

/-! ## Helper lemmas about decimal rendering -/

theorem digitChar_toNat : ∀ d : Nat, d < 10 → (Char.ofNat (48 + d)).toNat = 48 + d := by
  decide

theorem decVal_append_digit (l : List Char) (c : Char) :
    decVal (l ++ [c]) = decVal l * 10 + (c.toNat - 48) := by
  simp [decVal, List.foldl_append]

theorem decVal_decDigitsGo : ∀ f n, n < f → decVal (decDigitsGo f n) = n := by
  intro f
  induction f with
  | zero => intro n h; omega
  | succ f ih =>
    intro n h
    by_cases h10 : n < 10
    · rw [decDigitsGo, if_pos h10]
      simp [decVal]
      rw [digitChar_toNat n h10]
      omega
    · rw [decDigitsGo, if_neg h10, decVal_append_digit]
      have h1 : n / 10 < f := by
        have := Nat.div_lt_self (show 0 < n by omega) (show 1 < 10 by omega)
        omega
      rw [ih (n / 10) h1, digitChar_toNat (n % 10) (Nat.mod_lt _ (by omega))]
      omega

theorem toDecString_injective : Function.Injective toDecString := by
  intro m n h
  have hd : decDigitsGo (m + 1) m = decDigitsGo (n + 1) n := congrArg String.data h
  have hm := decVal_decDigitsGo (m + 1) m (by omega)
  have hn := decVal_decDigitsGo (n + 1) n (by omega)
  rw [← hm, ← hn, hd]

theorem colon_toNat : (':' : Char).toNat = 58 := rfl

theorem colon_notin_decDigitsGo : ∀ f n, ':' ∉ decDigitsGo f n := by
  intro f
  induction f with
  | zero => intro n; simp [decDigitsGo]
  | succ f ih =>
    intro n
    by_cases h10 : n < 10
    · rw [decDigitsGo, if_pos h10]
      intro hmem
      simp at hmem
      have h58 := congrArg Char.toNat hmem
      rw [digitChar_toNat n h10, colon_toNat] at h58
      omega
    · rw [decDigitsGo, if_neg h10]
      intro hmem
      rcases List.mem_append.mp hmem with hmem | hmem
      · exact ih (n / 10) hmem
      · simp at hmem
        have h58 := congrArg Char.toNat hmem
        rw [digitChar_toNat (n % 10) (Nat.mod_lt _ (by omega)), colon_toNat] at h58
        omega

/-! ## C5 — fingerprint purity and sensitivity -/

/-- C5: the fingerprint depends only on the selection identifier, the
record count and the impression sum — two datasets with equal count and
equal sum yield the same `dataKey` however their rows differ — and,
holding the other two inputs fixed, it changes whenever the record count
or the impression sum changes. -/
theorem fingerprint_pure_and_sensitive :
    (∀ pf sel (D1 D2 : List Row), D1.length = D2.length →
        sumImpressions D1 = sumImpressions D2 →
        dataKeyOf pf sel D1 = dataKeyOf pf sel D2) ∧
    (∀ sel c1 c2 m, deriveFingerprint sel c1 m = deriveFingerprint sel c2 m →
        c1 = c2) ∧
    (∀ sel c m1 m2, deriveFingerprint sel c m1 = deriveFingerprint sel c m2 →
        m1 = m2) := by
  refine ⟨?_, ?_, ?_⟩
  · intro pf sel D1 D2 hlen hsum
    simp only [dataKeyOf, hlen, hsum]
  · intro sel c1 c2 m h
    have hd := congrArg String.data h
    simp only [deriveFingerprint, String.data_append, List.append_assoc] at hd
    have h1 := List.append_cancel_left hd
    have h2 := List.append_cancel_left h1
    have h3 := List.append_cancel_right h2
    exact toDecString_injective (congrArg String.mk h3)
  · intro sel c m1 m2 h
    have hd := congrArg String.data h
    simp only [deriveFingerprint, String.data_append, List.append_assoc] at hd
    have h1 := List.append_cancel_left hd
    have h2 := List.append_cancel_left h1
    have h3 := List.append_cancel_left h2
    have h4 := List.append_cancel_left h3
    exact toDecString_injective (congrArg String.mk h4)

/-- Witness for C5: two one-row datasets with different rows (dates 0 and
1) but equal record count and impression sum produce the same `dataKey`. -/
theorem fingerprint_pure_and_sensitive_witness :
    dataKeyOf "7days" none [⟨10, 0⟩] = dataKeyOf "7days" none [⟨10, 1⟩] :=
  fingerprint_pure_and_sensitive.1 "7days" none [⟨10, 0⟩] [⟨10, 1⟩] rfl rfl

/-! ## C9 — fingerprint and the reserved key delimiter -/

/-- C9 counterexample: the fingerprint embeds the raw campaign name, so a
campaign named `"a:b"` produces the fingerprint `"a:b-1-2"`, which
contains the reserved storage-key delimiter `':'` — refuting the claim
for arbitrary campaign-name strings. -/
theorem fingerprint_colon_counterexample :
    ':' ∈ (deriveFingerprint (some "a:b") 1 2).data := by decide

/-- C9 amended: the derived fingerprint contains the reserved delimiter
`':'` only when the selection identifier itself does: whenever the
effective selection part (the campaign name, or the `"all"` sentinel for
a null/empty selection) is `':'`-free, so is the whole fingerprint — the
count and sum render as decimal digits and the separators are `'-'`. -/
theorem fingerprint_colon_free (sel : Option String) (c m : Nat)
    (hsel : ':' ∉ (selPart sel).data) :
    ':' ∉ (deriveFingerprint sel c m).data := by
  intro hmem
  simp only [deriveFingerprint, String.data_append, List.append_assoc,
    List.mem_append] at hmem
  rcases hmem with h | h | h | h | h
  · exact hsel h
  · exact absurd (List.mem_singleton.mp h) (by decide)
  · exact colon_notin_decDigitsGo _ _ h
  · exact absurd (List.mem_singleton.mp h) (by decide)
  · exact colon_notin_decDigitsGo _ _ h

/-- Witness for the amended C9 at the spec's own example fingerprint
`"all-245-1582340"` (null selection): it contains no `':'`. -/
theorem fingerprint_colon_free_witness :
    ':' ∉ (deriveFingerprint none 245 1582340).data :=
  fingerprint_colon_free none 245 1582340 (by decide)

/-! ## C1 — single-flight guard -/

/-- C1: at most one generation is in flight per UI context.  From a state
with no generation in flight, the first `generateAnalysis` call starts the
backend invocation sequence and raises the guard; a second
near-simultaneous call — whether through `generateAnalysis` directly or
through the `useEffect` re-fire — performs no additional sequence while
the guard is up; and the `finally`-block release clears the guard on
every completion, success and failure/exception alike. -/
theorem single_flight_guard (st stBusy : UIState) (k : String)
    (r : Except String String) (pf : String) (n : Nat)
    (hidle : st.isGenerating = false) (hbusy : stBusy.isGenerating = true) :
    (generateAnalysisStart (some k) st).2 = true ∧
    ((generateAnalysisStart (some k) st).1).isGenerating = true ∧
    (generateAnalysisStart (some k) (generateAnalysisStart (some k) st).1).2 = false ∧
    (analysisEffect pf n (some k) stBusy).2 = false ∧
    (generateAnalysisFinish r stBusy).isGenerating = false ∧
    (generateAnalysisFinish r (generateAnalysisStart (some k) st).1).isGenerating
      = false := by
  refine ⟨?_, ?_, ?_, ?_, ?_, ?_⟩
  · simp [generateAnalysisStart, hidle]
  · simp [generateAnalysisStart, hidle]
  · simp [generateAnalysisStart, hidle]
  · rw [analysisEffect]
    by_cases h1 : pf = "7days" ∧ 0 < n ∧ (some k).isSome = true
    · rw [if_pos h1]
      by_cases h2 : some k = stBusy.lastProcessedKey
      · rw [if_pos h2]
      · rw [if_neg h2, if_pos hbusy]
    · rw [if_neg h1]
  · cases r <;> simp [generateAnalysisFinish]
  · cases r <;> simp [generateAnalysisFinish]

/-- Witness for C1 at a concrete idle state and a concrete busy state,
with the completion being an error (the exception path). -/
theorem single_flight_guard_witness :
    (generateAnalysisStart (some "all-1-10") ⟨false, none, false, none, ""⟩).2 = true ∧
    ((generateAnalysisStart (some "all-1-10") ⟨false, none, false, none, ""⟩).1).isGenerating
      = true ∧
    (generateAnalysisStart (some "all-1-10")
      (generateAnalysisStart (some "all-1-10") ⟨false, none, false, none, ""⟩).1).2
      = false ∧
    (analysisEffect "7days" 1 (some "all-1-10")
      ⟨true, some "other", true, none, ""⟩).2 = false ∧
    (generateAnalysisFinish (.error "quota")
      ⟨true, some "other", true, none, ""⟩).isGenerating = false ∧
    (generateAnalysisFinish (.error "quota")
      (generateAnalysisStart (some "all-1-10") ⟨false, none, false, none, ""⟩).1).isGenerating
      = false :=
  single_flight_guard ⟨false, none, false, none, ""⟩ ⟨true, some "other", true, none, ""⟩
    "all-1-10" (.error "quota") "7days" 1 rfl rfl

/-! ## C4 — empty current-week data short-circuits -/

/-- C4: with empty current-week data, `generateWeeklyAnalysis` returns the
fixed "no data" sentinel with `cached = false` for every `allData`,
`dataKey`, `forceRefresh` and environment, performing zero store reads,
zero store writes and zero backend calls. -/
theorem empty_week_sentinel (allData : List Row) (dataKey : String)
    (forceRefresh : Bool) (env : GenEnv) :
    generateWeeklyAnalysis [] allData dataKey forceRefresh env =
      (.ok ⟨sentinelText, false, env.nowTs⟩, []) := by
  simp [generateWeeklyAnalysis]

/-! ## C7 — a failed put never discards the generated text -/

/-- C7: when the current-week data is nonempty, the cache misses (or the
refresh is forced) and the backend run succeeds with text `t`, the
coordinator returns `t` with `cached = false` even when the persistence
write fails (`setCachedAnalysis` swallows its error), and the write is
still attempted. -/
theorem put_failure_keeps_text (cur allData : List Row) (key : String)
    (forceRefresh : Bool) (env : GenEnv) (t : String)
    (hne : cur ≠ [])
    (hmiss : env.cached = none ∨ forceRefresh = true)
    (hrun : (callGeminiRun env.geminiOutcomes).1 = .success t)
    (_hput : env.putResult = .error ()) :
    (generateWeeklyAnalysis cur allData key forceRefresh env).1 =
      .ok ⟨t, false, env.nowTs⟩ ∧
    GEffect.storeWrite ∈ (generateWeeklyAnalysis cur allData key forceRefresh env).2 := by
  have hne' : cur.isEmpty = false := by
    cases cur with
    | nil => exact absurd rfl hne
    | cons a l => rfl
  rw [generateWeeklyAnalysis]
  rw [hne']
  simp only [Bool.false_eq_true, if_false]
  cases forceRefresh with
  | true =>
    simp only [Bool.not_true]
    rw [hrun]
    exact ⟨rfl, by simp⟩
  | false =>
    rcases hmiss with hmiss | hmiss
    · simp only [Bool.not_false]
      rw [hmiss, hrun]
      exact ⟨rfl, by simp⟩
    · exact absurd hmiss (by simp)

/-- Witness for C7: concrete run where the only model succeeds and the
persistence write fails; the freshly generated text is still returned
with `cached = false`. -/
theorem put_failure_keeps_text_witness :
    (generateWeeklyAnalysis [⟨5, 0⟩] [] "all-1-5" false
      ⟨none, [.success "texto"], .error (), "2025-12-08T12:00:00Z"⟩).1 =
      .ok ⟨"texto", false, "2025-12-08T12:00:00Z"⟩ ∧
    GEffect.storeWrite ∈ (generateWeeklyAnalysis [⟨5, 0⟩] [] "all-1-5" false
      ⟨none, [.success "texto"], .error (), "2025-12-08T12:00:00Z"⟩).2 :=
  put_failure_keeps_text [⟨5, 0⟩] [] "all-1-5" false
    ⟨none, [.success "texto"], .error (), "2025-12-08T12:00:00Z"⟩ "texto"
    (by simp) (Or.inl rfl) rfl rfl

/-! ## C6 — trailing-window history scan -/

/-- C6 counterexample: in `flakyStore` only the lookup of today's entry
errors and all 29 previous days would hit, yet the whole 30-day scan
fails: the server handler answers 500 instead of the 29-day subset, and
the client helper degrades the failed call to an empty history — the
erroring day is not treated as a miss for that day only. -/
theorem history_error_aborts_scan :
    historyScan flakyStore "fp" = .error () ∧
    handler flakyStore
      { method := "GET", urlHasHistory := true, queryDataKey := some "fp",
        queryDate := none, bodyDataKey := none, bodyAnalysis := none } =
      (.serverError500, []) ∧
    getAnalysisHistory (.error ()) = [] :=
  ⟨rfl, rfl, rfl⟩

/-- C6 amended: when every per-day lookup succeeds, the 30-day scan
returns exactly the subset of days that hit — each with its stored text
and its stored timestamp (falling back to the day's ISO instant) — in
scan order, i.e. most-recent-day-first since day `i` is today minus `i`;
but a day whose lookup errors is not tolerated: it aborts the entire scan
(see the counterexample). -/
theorem history_scan_hits_in_order (get0 : String → Option String)
    (dayStr dayIso : Nat → String) (nowIso : String) (dataKey : String) :
    historyScan ⟨fun k => .ok (get0 k), dayStr, dayIso, nowIso⟩ dataKey =
      .ok ((List.range 30).filterMap fun i =>
        match get0 (cacheKeyOf (dayStr i) dataKey) with
        | some a => some ⟨dayStr i, a,
            (get0 (cacheKeyOf (dayStr i) dataKey ++ ":timestamp")).getD (dayIso i)⟩
        | none => none) := by
  rw [historyScan]
  induction (List.range 30) with
  | nil => rfl
  | cons i rest ih =>
    rw [historyScanGo]
    simp only [bind, Except.bind, ih, List.filterMap_cons]
    cases get0 (cacheKeyOf (dayStr i) dataKey) <;> rfl

/-! ## C10 — POST without an analysis body is a read -/

/-- C10: a POST whose body carries a (nonempty) `dataKey` but a missing or
empty `analysis` performs no store write and is processed as a read of
today's entry for that key: status 200 with the cached text and its
timestamp on a hit, an explicit 404 on a miss. -/
theorem post_without_analysis_is_read (env : StoreEnv) (uh : Bool)
    (qdk qd : Option String) (k : String) (a : Option String)
    (v ts : Option String)
    (hk : k ≠ "")
    (ha : a = none ∨ a = some "")
    (hget : env.get (cacheKeyOf (env.dayStr 0) k) = .ok v)
    (hts : env.get (cacheKeyOf (env.dayStr 0) k ++ ":timestamp") = .ok ts) :
    handler env
      { method := "POST", urlHasHistory := uh, queryDataKey := qdk,
        queryDate := qd, bodyDataKey := some k, bodyAnalysis := a } =
      (readResponse v ts env.nowIso, []) := by
  have hka : jsTruthy (some k) = true := by
    simp [jsTruthy, hk]
  have haf : jsTruthy a = false := by
    rcases ha with ha | ha <;> simp [ha, jsTruthy]
  have h0 : jsTruthy none = false := rfl
  rw [handler]
  simp only [String.reduceEq, false_and, reduceIte, hka, h0, haf, Bool.not_true,
    Bool.not_false, Bool.false_eq_true, if_false, if_true, false_or,
    Option.getD_some, ite_true, ite_false]
  cases v with
  | none => rw [hget]; rfl
  | some c => rw [hget, hts]; rfl

/-- Witness for C10: in `demoStore` (today's entry present, no timestamp
key) a POST with an empty `analysis` field returns the cached text with
the `nowIso` fallback timestamp and performs no write. -/
theorem post_without_analysis_is_read_witness :
    handler demoStore
      { method := "POST", urlHasHistory := false, queryDataKey := none,
        queryDate := none, bodyDataKey := some "all-245-1582340",
        bodyAnalysis := some "" } =
      (.ok200 "texto" true "2025-12-08T12:00:00.000Z", []) :=
  post_without_analysis_is_read demoStore false none none "all-245-1582340"
    (some "") (some "texto") none (by decide) (Or.inr rfl) rfl rfl

end DashboardBRB
